import Mathlib

/-!
Verification of the OpenDepartureDisplay core against its source.

The Python source (data_classes.py, helper_functions.py, gui.py, main.py) is
shallowly embedded below.  Python strings are Lean `String`s, but the string
primitives the source relies on (`str.split(" ")`, `str.startswith`, slicing,
`" ".join`, case-insensitive substring search) are re-implemented over
`List Char` so that every definition evaluates by kernel reduction.
`datetime` instants are modelled as `Int` (comparison and ordering is all the
source uses them for), and Python's `None` becomes `Option`.
-/

/-- Model of Python `str.split(sep)` restricted to a single character
separator, on character lists: consecutive separators yield empty pieces and
the result is never the empty list (Python: `"".split(" ") == [""]`). -/
def splitOnChar (sep : Char) : List Char → List (List Char)
  | [] => [[]]
  | c :: cs =>
    if c = sep then [] :: splitOnChar sep cs
    else
      match splitOnChar sep cs with
      | [] => [[c]]
      | w :: ws => (c :: w) :: ws

/-- Model of Python `s.split(" ")`. -/
def pySplit (s : String) : List String :=
  (splitOnChar ' ' s.data).map String.mk

/-- Model of Python `s.startswith(p)`. -/
def pyStartswith (s p : String) : Bool :=
  p.data.isPrefixOf s.data

/-- Model of Python slicing `s[0:n]` for a string. -/
def pyTake (s : String) (n : Nat) : String :=
  String.mk (s.data.take n)

/-- Model of Python slicing `s[n:]` for a string. -/
def pyDrop (s : String) (n : Nat) : String :=
  String.mk (s.data.drop n)

/-- Model of Python `sep.join(pieces)`. -/
def pyJoin (sep : String) : List String → String
  | [] => ""
  | w :: ws => ws.foldl (fun acc x => acc ++ sep ++ x) w

/-- Model of Python negative indexing `words[-1]` for a nonempty list of
words (the source only evaluates it under a nonemptiness guard). -/
def pyLast (words : List String) : String :=
  words.getLastD ""

/-- Case-insensitive substring test: does `needle` occur inside `hay`?
Models `pandas.Series.str.contains(needle, case=False)` for a plain (non
regex-special) needle after both sides are lowercased by the caller. -/
def infixOf (needle : List Char) : List Char → Bool
  | [] => needle.isEmpty
  | c :: t => needle.isPrefixOf (c :: t) || infixOf needle t

/-- Lowercase a string character by character (ASCII-adequate model of the
case folding pandas performs for `case=False`). -/
def lowerStr (s : String) : List Char :=
  s.data.map Char.toLower

/-- Departure instants (`datetime.datetime` in the source) modelled as
integers, e.g. minutes since some epoch; the source only ever compares them. -/
abbrev Time := Int

/-- data_classes.py, `StopPoint`: one physical stop point.  The Python field
`prefix` is called `prefixText` here because Lean reserves the former word;
`@dataclass` equality is full field-wise equality, which `DecidableEq`
mirrors. -/
structure StopPoint where
  stop_point_ref : String
  prefixText : Option String
  suffix : Option String
deriving DecidableEq, Repr

/-- data_classes.py, `Station`: a named station owning stop points.  The
`float` field `lead_time_minutes` (unused by all logic) is modelled
exactly as a rational. -/
structure Station where
  name : String
  lead_time_minutes : Rat
  stop_points : List StopPoint
deriving DecidableEq, Repr

/-- data_classes.py, `Departure`: one decoded departure.  `mode` is a plain
string (the source's `Literal` annotation is not enforced at runtime). -/
structure Departure where
  line_number : String
  destination : String
  platform : Option String
  station : Station
  stop_point : StopPoint
  mode : String
  background_color : String
  text_color : String
  planned_time : Time
  estimated_time : Option Time
deriving DecidableEq, Repr

/-- One row of the line-color table `line-colors.csv` as `get_line_color`
reads it with pandas; `shortOperatorName` is optional because the CSV cell
may be empty (pandas `NaN`, excluded by `na=False`). -/
structure ColorRow where
  shortOperatorName : Option String
  lineName : String
  backgroundColor : String
  textColor : String
deriving DecidableEq, Repr

/-- gui.py, `Window`: the display-surface state the core logic touches — its
bound station and its display capacity (`number_of_departure_entries`). -/
structure Window where
  station : Station
  number_of_departure_entries : Nat
deriving DecidableEq, Repr

/-- helper_functions.py, `format_platform`: drop the first whitespace token
("Gleis", "Bahnsteig", ...) when the text has more than one token, otherwise
return the text unchanged. -/
def format_platform (platform : String) : String :=
  let words := pySplit platform
  if words.length > 1 then pyJoin " " (words.drop 1)
  else platform

/-- helper_functions.py lines 214-225 inside `get_departures_from_xml`: the
published line label is split on spaces; a first `if` assigns
`"SEV" + words[-1]` when the second word is `"SEV"`, and a second,
independent `if` (not an `elif`) reassigns `line_number` from the last word
whenever the word list is nonempty.  `none` models the `NameError` Python
would raise if neither branch assigned (unreachable: `split` never returns
an empty list).  `"".join(words[1:2])` is the second word when it exists and
`""` otherwise; `"".join(words[-1])` is just `words[-1]`. -/
def normalize_line_number (published_line_name : String) : Option String :=
  let words := pySplit published_line_name
  let line_number : Option String :=
    if words.length > 1 ∧ words.get? 1 = some "SEV" then
      some ("SEV" ++ pyLast words)
    else none
  if words.length > 0 then
    some (if pyLast words = "InterCityExpress" then "ICE" ++ pyJoin "" ((words.drop 1).take 1)
          else if pyLast words = "InterCity" then "IC" ++ pyJoin "" ((words.drop 1).take 1)
          else if pyLast words = "Flixbus" then "FLX" ++ pyLast words
          else pyLast words)
  else line_number

/-- The pandas row filter `df['shortOperatorName'].str.contains('kvv',
case=False, na=False)`: a missing operator cell never matches, otherwise a
case-insensitive substring search for `"kvv"`. -/
def opMatchesKvv : Option String → Bool
  | none => false
  | some s => infixOf "kvv".data (lowerStr s)

/-- helper_functions.py, `get_line_color`: fixed color pairs for lines
starting with `"ICE"`/`"IC"` and `"FLX"`; otherwise an exact `lineName`
search in the kvv-operator-filtered table (first matching row wins, as
`result[...].array[0]` takes the first row), with one retry on the
`"SEV"`-stripped name when `line_name[0:3] == "SEV"` and the flag allows
it, and the fallback pair when everything misses (the raised `IndexError`
is caught and turned into the fallback).  The CSV file on disk is passed in
as the row list `table`. -/
def get_line_color (line_name : String) (table : List ColorRow)
    (fallback_colors : String × String)
    (SEV_lines_use_normal_line_icon_colors : Bool) : String × String :=
  if pyStartswith line_name "ICE" || pyStartswith line_name "IC" then
    ("#EC0016", "#FFFFFF")
  else if pyStartswith line_name "FLX" then
    ("#97d700", "#FFFFFF")
  else
    let filtered_df := table.filter (fun r => opMatchesKvv r.shortOperatorName)
    match filtered_df.filter (fun r => r.lineName = line_name) with
    | [] =>
      if SEV_lines_use_normal_line_icon_colors = true ∧ pyTake line_name 3 = "SEV" then
        match filtered_df.filter (fun r => r.lineName = pyDrop line_name 3) with
        | [] => fallback_colors
        | r :: _ => (r.backgroundColor, r.textColor)
      else fallback_colors
    | r :: _ => (r.backgroundColor, r.textColor)

/-- helper_functions.py, `get_all_used_stoppoints`: walk every window's
station's stop points, appending each one not already collected.  The
membership test is Python `in`, i.e. `@dataclass` equality on all of
`(stop_point_ref, prefix, suffix)`. -/
def get_all_used_stoppoints (windows : List Window) : List StopPoint :=
  windows.foldl
    (fun acc w =>
      w.station.stop_points.foldl
        (fun a sp => if sp ∈ a then a else a ++ [sp]) acc)
    []

/-- helper_functions.py, `get_departures_for_window`: keep the departures
whose `station` equals (dataclass equality) the window's station, in input
order. -/
def get_departures_for_window (window : Window) (all_departures : List Departure) :
    List Departure :=
  all_departures.filter (fun d => d.station = window.station)

/-- The sort key of gui.py line 143: `estimated_time` when present,
otherwise `planned_time`. -/
def sortKey (d : Departure) : Time :=
  d.estimated_time.getD d.planned_time

/-- The ordering relation `list.sort(key=...)` sorts by: ascending sort
keys. -/
def depLE (a b : Departure) : Prop :=
  sortKey a ≤ sortKey b

instance : DecidableRel depLE :=
  fun a b => inferInstanceAs (Decidable (sortKey a ≤ sortKey b))

instance : IsTotal Departure depLE :=
  ⟨fun a b => Int.le_total (sortKey a) (sortKey b)⟩

instance : IsTrans Departure depLE :=
  ⟨fun _ _ _ hab hbc => Int.le_trans hab hbc⟩

/-- Python `list.sort(key=...)` is a stable ascending sort; since the output
of a stable sort is unique, it is modelled by stable insertion sort. -/
def pySort (l : List Departure) : List Departure :=
  List.insertionSort depLE l

/-- The display content of one departure slot of a window: either it shows a
departure or it has been cleared. -/
inductive SlotContent where
  | shows : Departure → SlotContent
  | cleared : SlotContent
deriving DecidableEq, Repr

/-- The two loops of gui.py `Window.refresh` lines 149-157 acting on the
display slots (entries 1..N; the header entry 0 is never touched): write the
sorted departures into the leading slots — stopping at the last slot when
departures outnumber slots (`if i + 1 >= self.number_of_departure_entries:
break`) — then clear every remaining slot (`self.departure_entries[i + 2:]`). -/
def fillSlots : List SlotContent → List Departure → List SlotContent
  | [], _ => []
  | _ :: rest, d :: ds => SlotContent.shows d :: fillSlots rest ds
  | _ :: rest, [] => SlotContent.cleared :: fillSlots rest []

/-- gui.py, `Window.refresh`: sort the received list in place (modelled by
returning the caller-visible list), then return early when it is empty
(`if len(departures) < 1 ... : return`, leaving every slot untouched),
otherwise fill and clear the slots.  The slot list stands for the window's
`departure_entries[1:]`, so its length is the display capacity. -/
def Window.refresh (slots : List SlotContent) (departures : List Departure) :
    List Departure × List SlotContent :=
  let sorted := pySort departures
  if sorted.length < 1 then (sorted, slots)
  else (sorted, fillSlots slots sorted)

/-- One `tri:StopEventResult` node of a structurally well-formed Trias
response, reduced to the elements `get_departures_from_xml` reads.  Each
field is `none` when the element is absent (ElementTree `find` returning
`None`) or carries no text; the two time elements carry already-parsed
instants. -/
structure StopEventResult where
  stopPointRefText : Option String
  timetabledTime : Option Time
  estimatedTime : Option Time
  publishedLineName : Option String
  destinationText : Option String
  plannedBay : Option String
  modeText : Option String
deriving DecidableEq, Repr

/-- The Python exceptions that escape `get_departures_from_xml`:
`attrError` models the `AttributeError` raised by `.text` on a missing
element, `nameError` the `NameError` raised when `departure_station` /
`departure_stop_point` (or `line_number`) were never assigned. -/
inductive DecodeError where
  | attrError : DecodeError
  | nameError : DecodeError
deriving DecidableEq, Repr

/-- helper_functions.py lines 236-240: the double loop over `all_stations`
and their stop points that assigns `departure_station` and
`departure_stop_point` on every stop point whose `ref` equals the requested
one exactly — the last match wins; `none` when no stop point matches (the
Python variables stay unassigned). -/
def resolveStopPoint (all_stations : List Station) (stop_point_ref : String) :
    Option (Station × StopPoint) :=
  all_stations.foldl
    (fun acc station =>
      station.stop_points.foldl
        (fun acc2 sp =>
          if sp.stop_point_ref = stop_point_ref then some (station, sp) else acc2)
        acc)
    none

/-- Processing of one `StopEventResult` by `get_departures_from_xml`
(helper_functions.py lines 200-263), in source order: the prefix filter on
the embedded stop-point ref, then planned time (required), estimated time
(optional, its `try`/`except` catching any absence), published line name
(required) and its normalization, destination (required), platform
(optional, `AttributeError` caught), station/stop-point resolution
(`NameError` when unresolvable), mode (required), and color resolution.
`ok none` is a record skipped by the prefix filter; `error` aborts the
whole surrounding call. -/
def decodeEvent (stop_point_ref : String) (all_stations : List Station)
    (table : List ColorRow) (fallback_line_icon_colors : String × String)
    (SEV_lines_use_normal_line_icon_colors : Bool) (ev : StopEventResult) :
    Except DecodeError (Option Departure) :=
  match ev.stopPointRefText with
  | none => .error .attrError
  | some spText =>
    if pyStartswith spText stop_point_ref then
      match ev.timetabledTime with
      | none => .error .attrError
      | some planned_time =>
        let estimated_time := ev.estimatedTime
        match ev.publishedLineName with
        | none => .error .attrError
        | some published_line_name =>
          match normalize_line_number published_line_name with
          | none => .error .nameError
          | some line_number =>
            match ev.destinationText with
            | none => .error .attrError
            | some destination =>
              let platform := ev.plannedBay.map format_platform
              match resolveStopPoint all_stations stop_point_ref with
              | none => .error .nameError
              | some (departure_station, departure_stop_point) =>
                match ev.modeText with
                | none => .error .attrError
                | some mode =>
                  let colors := get_line_color line_number table
                    fallback_line_icon_colors SEV_lines_use_normal_line_icon_colors
                  .ok (some { line_number := line_number
                              destination := destination
                              platform := platform
                              station := departure_station
                              stop_point := departure_stop_point
                              mode := mode
                              background_color := colors.1
                              text_color := colors.2
                              planned_time := planned_time
                              estimated_time := estimated_time })
    else .ok none

/-- helper_functions.py, `get_departures_from_xml`: decode the stop events
of one response document in order, appending each decoded departure; the
first uncaught exception aborts the whole call (`error`), dropping every
record of the document. -/
def get_departures_from_xml (stop_point_ref : String)
    (events : List StopEventResult) (all_stations : List Station)
    (table : List ColorRow) (fallback_line_icon_colors : String × String)
    (SEV_lines_use_normal_line_icon_colors : Bool) :
    Except DecodeError (List Departure) :=
  match events with
  | [] => .ok []
  | ev :: rest =>
    match decodeEvent stop_point_ref all_stations table fallback_line_icon_colors
        SEV_lines_use_normal_line_icon_colors ev with
    | .error e => .error e
    | .ok od =>
      match get_departures_from_xml stop_point_ref rest all_stations table
          fallback_line_icon_colors SEV_lines_use_normal_line_icon_colors with
      | .error e => .error e
      | .ok ds =>
        match od with
        | none => .ok ds
        | some d => .ok (d :: ds)

instance {ε α : Type _} [DecidableEq ε] [DecidableEq α] : DecidableEq (Except ε α)
  | Except.error a, Except.error b =>
    if h : a = b then isTrue (h ▸ rfl) else isFalse fun hc => h (Except.error.inj hc)
  | Except.error _, Except.ok _ => isFalse fun hc => Except.noConfusion hc
  | Except.ok _, Except.error _ => isFalse fun hc => Except.noConfusion hc
  | Except.ok a, Except.ok b =>
    if h : a = b then isTrue (h ▸ rfl) else isFalse fun hc => h (Except.ok.inj hc)

/-- Modelled from the spec: the KVV transit-service client (`KVV.py`, not
part of the supplied sources) — per section 6 of the specification,
`fetch(stop_point_ref, max_results)` returns either a raw response document
or a failure value (transport error: network/HTTP error status).  A
`failure` value handed to `ET.fromstring` raises, which main.py catches
inside its per-stop-point `try`. -/
inductive FetchResult where
  | doc : List StopEventResult → FetchResult
  | failure : FetchResult
deriving Repr

/-- main.py, `update_departure_entries` lines 63-80 (the aggregation part of
one departure-refresh cycle): for every distinct stop point, fetch its
response; parsing and decoding sit inside a `try` whose handler logs and
continues, so a transport failure (whose payload fails to parse) or a
decode error contributes nothing for that stop point while every other stop
point is still processed; successful decodes are appended to the aggregate
in stop-point order. -/
def update_departure_entries (fetch : String → FetchResult)
    (all_stop_points : List StopPoint) (stations : List Station)
    (table : List ColorRow) (fallback : String × String) (sev_flag : Bool) :
    List Departure :=
  all_stop_points.foldl
    (fun all_departures stop_point =>
      match fetch stop_point.stop_point_ref with
      | .failure => all_departures
      | .doc events =>
        match get_departures_from_xml stop_point.stop_point_ref events stations
            table fallback sev_flag with
        | .error _ => all_departures
        | .ok ds => all_departures ++ ds)
    []

/-- Reference definition for the amended C2 claim: the last-word rules
(b)-(e) of the specification alone, in their stated order, with no SEV
branch at all. -/
def lastWordRule (published_line_name : String) : String :=
  let words := pySplit published_line_name
  if pyLast words = "InterCityExpress" then "ICE" ++ pyJoin "" ((words.drop 1).take 1)
  else if pyLast words = "InterCity" then "IC" ++ pyJoin "" ((words.drop 1).take 1)
  else if pyLast words = "Flixbus" then "FLX" ++ pyLast words
  else pyLast words

/-- Reference definition for the amended C5 claim: keep the first occurrence
of each value and drop all its later duplicates. -/
def dedupKeepFirst {α : Type _} [DecidableEq α] : List α → List α
  | [] => []
  | x :: xs => x :: dedupKeepFirst (xs.filter (fun y => decide (y ≠ x)))
termination_by l => l.length
decreasing_by
  simp only [List.length_cons]
  exact Nat.lt_succ_of_le (List.length_filter_le _ _)

/-- A stop-event record that `get_departures_from_xml` cannot turn into a
departure: its embedded stop-point ref is unreadable, or the record passes
the prefix filter but lacks a required field (planned time, published line
name, destination or mode) or its stop point cannot be resolved against the
supplied station list. -/
def requiredMissing (all_stations : List Station) (stop_point_ref : String)
    (ev : StopEventResult) : Prop :=
  ev.stopPointRefText = none ∨
  ∃ spText, ev.stopPointRefText = some spText ∧ pyStartswith spText stop_point_ref = true ∧
    (ev.timetabledTime = none ∨ ev.publishedLineName = none ∨ ev.destinationText = none ∨
     ev.modeText = none ∨ resolveStopPoint all_stations stop_point_ref = none)

/-- Concrete stop point used by the witnesses. -/
def mainStop : StopPoint := ⟨"de:8212:1", none, none⟩

/-- Concrete station used by the witnesses. -/
def hbf : Station := ⟨"Hbf", 0, [mainStop]⟩

/-- Concrete display surface bound to `hbf`. -/
def windowHbf : Window := ⟨hbf, 10⟩

/-- A complete, decodable stop event for `hbf`. -/
def goodEvent : StopEventResult :=
  ⟨some "de:8212:1:2", some 605, none, some "Bus 42", some "Karlsruhe",
   some "Gleis 3", some "bus"⟩

/-- A stop event that passes the prefix filter but has no destination text. -/
def badEvent : StopEventResult :=
  ⟨some "de:8212:1:3", some 610, none, some "Bus 47", none, some "Gleis 4", some "bus"⟩

/-- The departure `goodEvent` decodes to. -/
def goodDeparture : Departure :=
  ⟨"42", "Karlsruhe", some "3", hbf, mainStop, "bus", "#000000", "#111111", 605, none⟩

/-- The specification's sorting example: no estimated time, planned 10:02
(minute 602). -/
def depNullEst : Departure :=
  ⟨"1", "A-Stadt", none, hbf, mainStop, "bus", "#000000", "#111111", 602, none⟩

/-- The specification's sorting example: estimated 10:05 (minute 605). -/
def depEst1005 : Departure :=
  ⟨"2", "B-Stadt", none, hbf, mainStop, "bus", "#000000", "#111111", 605, some 605⟩

/-- Two display surfaces whose stations hold stop points with the same ref
`"X"` but different prefix adornments (for C5). -/
def sharedRefWindows : List Window :=
  [⟨⟨"A", 0, [⟨"X", some "a", none⟩]⟩, 10⟩, ⟨⟨"B", 0, [⟨"X", some "b", none⟩]⟩, 10⟩]

/-- A one-row color table whose only line is `"12"`, operated by KVV. -/
def colorTable12 : List ColorRow :=
  [⟨some "KVV", "12", "#A1B2C3", "#D4E5F6"⟩]

/-- A fetch function for the C1 witness: the stop point `"B"` suffers a
transport failure, every other one returns a document containing
`goodEvent`. -/
def cycleFetch : String → FetchResult :=
  fun r => if r = "B" then FetchResult.failure else FetchResult.doc [goodEvent]

theorem splitOnChar_ne_nil (sep : Char) (l : List Char) : splitOnChar sep l ≠ [] := by
  induction l with
  | nil => simp [splitOnChar]
  | cons c cs ih =>
    simp only [splitOnChar]
    split
    · simp
    · cases h : splitOnChar sep cs with
      | nil => simp
      | cons w ws => simp

theorem pySplit_ne_nil (s : String) : pySplit s ≠ [] := by
  unfold pySplit
  simp only [ne_eq, List.map_eq_nil_iff]
  exact splitOnChar_ne_nil ' ' s.data

theorem refresh_fst (slots : List SlotContent) (departures : List Departure) :
    (Window.refresh slots departures).1 = pySort departures := by
  unfold Window.refresh
  by_cases h : (pySort departures).length < 1
  · simp only [if_pos h]
  · simp only [if_neg h]

theorem flx_not_ic {s : String} (h : pyStartswith s "FLX" = true) :
    pyStartswith s "ICE" = false ∧ pyStartswith s "IC" = false := by
  have hflx : "FLX".data = ['F', 'L', 'X'] := rfl
  have hice : "ICE".data = ['I', 'C', 'E'] := rfl
  have hic : "IC".data = ['I', 'C'] := rfl
  unfold pyStartswith at h ⊢
  rw [hflx] at h
  rw [hice, hic]
  cases hs : s.data with
  | nil => rw [hs] at h; simp [List.isPrefixOf] at h
  | cons c rest =>
    rw [hs] at h
    simp only [List.isPrefixOf, Bool.and_eq_true, beq_iff_eq] at h
    obtain ⟨hc, -⟩ := h
    subst hc
    refine ⟨?_, ?_⟩ <;> simp [List.isPrefixOf]

theorem resolve_inner (station : Station) (stop_point_ref : String) :
    ∀ (sps : List StopPoint) (acc : Option (Station × StopPoint)) (st : Station) (sp : StopPoint),
      sps.foldl
        (fun acc2 x => if x.stop_point_ref = stop_point_ref then some (station, x) else acc2)
        acc = some (st, sp) →
      acc = some (st, sp) ∨ (st = station ∧ sp ∈ sps ∧ sp.stop_point_ref = stop_point_ref) := by
  intro sps
  induction sps with
  | nil => intro acc st sp h; exact Or.inl h
  | cons x rest ih =>
    intro acc st sp h
    simp only [List.foldl_cons] at h
    rcases ih _ st sp h with hstep | ⟨hst, hmem, href⟩
    · by_cases hx : x.stop_point_ref = stop_point_ref
      · rw [if_pos hx] at hstep
        obtain ⟨h1, h2⟩ := Prod.mk.injEq .. ▸ Option.some.inj hstep
        exact Or.inr ⟨h1.symm, by rw [← h2]; exact List.mem_cons_self _ _, h2 ▸ hx⟩
      · rw [if_neg hx] at hstep
        exact Or.inl hstep
    · exact Or.inr ⟨hst, List.mem_cons_of_mem _ hmem, href⟩

theorem resolve_outer (stop_point_ref : String) :
    ∀ (l : List Station) (acc : Option (Station × StopPoint)) (st : Station) (sp : StopPoint),
      l.foldl
        (fun acc station =>
          station.stop_points.foldl
            (fun acc2 x => if x.stop_point_ref = stop_point_ref then some (station, x) else acc2)
            acc)
        acc = some (st, sp) →
      acc = some (st, sp) ∨
        (st ∈ l ∧ sp ∈ st.stop_points ∧ sp.stop_point_ref = stop_point_ref) := by
  intro l
  induction l with
  | nil => intro acc st sp h; exact Or.inl h
  | cons s rest ih =>
    intro acc st sp h
    simp only [List.foldl_cons] at h
    rcases ih _ st sp h with hstep | ⟨hst, hmem, href⟩
    · rcases resolve_inner s stop_point_ref s.stop_points acc st sp hstep with
        hacc | ⟨hst, hmem, href⟩
      · exact Or.inl hacc
      · exact Or.inr ⟨hst ▸ List.mem_cons_self _ _, hst ▸ hmem, href⟩
    · exact Or.inr ⟨List.mem_cons_of_mem _ hst, hmem, href⟩

theorem resolveStopPoint_mem {all_stations : List Station} {stop_point_ref : String}
    {st : Station} {sp : StopPoint}
    (h : resolveStopPoint all_stations stop_point_ref = some (st, sp)) :
    st ∈ all_stations ∧ sp ∈ st.stop_points ∧ sp.stop_point_ref = stop_point_ref := by
  rcases resolve_outer stop_point_ref all_stations none st sp h with hacc | hgood
  · exact absurd hacc (by simp)
  · exact hgood

theorem dedupKeepFirst_nil {α : Type _} [DecidableEq α] :
    dedupKeepFirst ([] : List α) = [] := by
  rw [dedupKeepFirst]

theorem dedupKeepFirst_cons {α : Type _} [DecidableEq α] (x : α) (xs : List α) :
    dedupKeepFirst (x :: xs) = x :: dedupKeepFirst (xs.filter (fun y => decide (y ≠ x))) := by
  rw [dedupKeepFirst]

theorem foldl_addNew_eq {α : Type _} [DecidableEq α] (l : List α) :
    ∀ acc : List α,
      l.foldl (fun a sp => if sp ∈ a then a else a ++ [sp]) acc =
        acc ++ dedupKeepFirst (l.filter (fun y => decide (y ∉ acc))) := by
  induction l with
  | nil => intro acc; simp [dedupKeepFirst_nil]
  | cons x xs ih =>
    intro acc
    simp only [List.foldl_cons]
    by_cases hx : x ∈ acc
    · rw [if_pos hx, ih, List.filter_cons]
      simp [hx]
    · rw [if_neg hx, ih, List.filter_cons]
      have hpx : decide (x ∉ acc) = true := by simpa using hx
      rw [hpx]
      simp only [if_true]
      rw [dedupKeepFirst_cons, List.filter_filter]
      have hfil : ∀ y : α,
          (decide (y ≠ x) && decide (y ∉ acc)) = decide (y ∉ acc ++ [x]) := by
        intro y
        by_cases h1 : y = x <;> by_cases h2 : y ∈ acc <;> simp [h1, h2]
      rw [List.filter_congr (fun y _ => hfil y)]
      simp [List.append_assoc]

theorem foldl_nested (f : List StopPoint → StopPoint → List StopPoint) :
    ∀ (ws : List Window) (acc : List StopPoint),
      ws.foldl (fun a w => w.station.stop_points.foldl f a) acc =
        ((ws.map (fun w => w.station.stop_points)).flatten).foldl f acc := by
  intro ws
  induction ws with
  | nil => intro acc; rfl
  | cons w rest ih =>
    intro acc
    simp only [List.foldl_cons, List.map_cons, List.flatten_cons, List.foldl_append]
    exact ih _

theorem decodeEvent_ok (stop_point_ref : String) (all_stations : List Station)
    (table : List ColorRow) (fb : String × String) (flag : Bool) (ev : StopEventResult)
    (x : Option Departure)
    (h : decodeEvent stop_point_ref all_stations table fb flag ev = .ok x) :
    ¬ requiredMissing all_stations stop_point_ref ev ∧
    (∀ d, x = some d →
      resolveStopPoint all_stations stop_point_ref = some (d.station, d.stop_point)) := by
  obtain ⟨spt, tt, et, pln, dst, pb, md⟩ := ev
  cases spt with
  | none => exact Except.noConfusion h
  | some spText =>
    simp only [decodeEvent] at h
    by_cases hpre : pyStartswith spText stop_point_ref = true
    case neg =>
      rw [if_neg hpre] at h
      have hx : (Except.ok none : Except DecodeError (Option Departure)) = Except.ok x := h
      have hxn := Except.ok.inj hx
      constructor
      · rintro (hnone | ⟨s, hs, hstart, hbad⟩) <;> simp_all
      · intro d hd
        rw [← hxn] at hd
        cases hd
    case pos =>
      rw [if_pos hpre] at h
      cases tt with
      | none => exact Except.noConfusion h
      | some planned =>
        cases pln with
        | none => exact Except.noConfusion h
        | some plnName =>
          simp only [] at h
          cases hnorm : normalize_line_number plnName with
          | none => rw [hnorm] at h; exact Except.noConfusion h
          | some ln =>
            rw [hnorm] at h
            cases dst with
            | none => exact Except.noConfusion h
            | some dest =>
              cases hres : resolveStopPoint all_stations stop_point_ref with
              | none => rw [hres] at h; exact Except.noConfusion h
              | some pr =>
                rw [hres] at h
                obtain ⟨depSt, depSp⟩ := pr
                cases md with
                | none => exact Except.noConfusion h
                | some mode =>
                  have hrec := Except.ok.inj h
                  constructor
                  · rintro (hnone | ⟨s, hs, hstart, hbad⟩) <;> simp_all
                  · intro d hd
                    rw [← hrec] at hd
                    have hdd := Option.some.inj hd
                    subst hdd
                    rfl

theorem decode_ok_not_missing (stop_point_ref : String) (all_stations : List Station)
    (table : List ColorRow) (fb : String × String) (flag : Bool) :
    ∀ (events : List StopEventResult) (l : List Departure),
      get_departures_from_xml stop_point_ref events all_stations table fb flag = .ok l →
      ∀ ev ∈ events, ¬ requiredMissing all_stations stop_point_ref ev := by
  intro events
  induction events with
  | nil => intro l h ev hmem; cases hmem
  | cons e rest ih =>
    intro l h ev hmem
    unfold get_departures_from_xml at h
    cases hd : decodeEvent stop_point_ref all_stations table fb flag e with
    | error er => rw [hd] at h; exact Except.noConfusion h
    | ok od =>
      rw [hd] at h
      cases hrest : get_departures_from_xml stop_point_ref rest all_stations table fb flag with
      | error er => rw [hrest] at h; cases od <;> exact Except.noConfusion h
      | ok ds =>
        rw [hrest] at h
        rcases List.mem_cons.mp hmem with rfl | hmem'
        · exact (decodeEvent_ok stop_point_ref all_stations table fb flag ev od hd).1
        · exact ih ds hrest ev hmem'

theorem decode_mem_resolve (stop_point_ref : String) (all_stations : List Station)
    (table : List ColorRow) (fb : String × String) (flag : Bool) :
    ∀ (events : List StopEventResult) (l : List Departure),
      get_departures_from_xml stop_point_ref events all_stations table fb flag = .ok l →
      ∀ d ∈ l, resolveStopPoint all_stations stop_point_ref = some (d.station, d.stop_point) := by
  intro events
  induction events with
  | nil =>
    intro l h d hd
    have : l = [] := (Except.ok.inj h).symm
    rw [this] at hd; cases hd
  | cons e rest ih =>
    intro l h d hd
    unfold get_departures_from_xml at h
    cases hdec : decodeEvent stop_point_ref all_stations table fb flag e with
    | error er => rw [hdec] at h; exact Except.noConfusion h
    | ok od =>
      rw [hdec] at h
      cases hrest : get_departures_from_xml stop_point_ref rest all_stations table fb flag with
      | error er => rw [hrest] at h; cases od <;> exact Except.noConfusion h
      | ok ds =>
        rw [hrest] at h
        cases od with
        | none =>
          have : ds = l := Except.ok.inj h
          rw [this] at hrest
          exact ih l hrest d hd
        | some d0 =>
          have hl : d0 :: ds = l := Except.ok.inj h
          rw [← hl] at hd
          rcases List.mem_cons.mp hd with rfl | hd'
          · exact (decodeEvent_ok stop_point_ref all_stations table fb flag e _ hdec).2 d rfl
          · exact ih ds hrest d hd'

/-- C2 (counterexample): for the published label "Bus SEV 10", whose second
word is exactly "SEV", the claim demands the normalized label
"SEV" + last word = "SEV10"; the decoder instead yields "10", because the
second `if` block unconditionally overwrites the SEV assignment. -/
theorem C2_sev_rule_counterexample :
    normalize_line_number "Bus SEV 10" = some "10" ∧ ("10" : String) ≠ "SEV10" := by
  decide

/-- C2 (amended): the decoder's normalized line number is determined solely
by the last-word rules (b)-(e) in their stated order; the SEV assignment (a)
is evaluated first but is always overwritten by the second `if` block, so it
never reaches the output. -/
theorem C2_last_word_rules_only (published_line_name : String) :
    normalize_line_number published_line_name = some (lastWordRule published_line_name) := by
  have h : pySplit published_line_name ≠ [] := pySplit_ne_nil published_line_name
  have hlen : 0 < (pySplit published_line_name).length := List.length_pos.mpr h
  simp only [normalize_line_number, lastWordRule]
  rw [if_pos hlen]

/-- C5 (counterexample): two surfaces whose stations hold stop points with
the same ref "X" but different prefix adornments; the collected list keeps
both, so it does not contain exactly one stop point with that ref and its
size exceeds the number of unique ref values. -/
theorem C5_dedup_by_ref_counterexample :
    get_all_used_stoppoints sharedRefWindows =
        [⟨"X", some "a", none⟩, ⟨"X", some "b", none⟩] ∧
      (⟨"X", some "a", none⟩ : StopPoint).stop_point_ref =
        (⟨"X", some "b", none⟩ : StopPoint).stop_point_ref ∧
      (⟨"X", some "a", none⟩ : StopPoint) ≠ (⟨"X", some "b", none⟩ : StopPoint) := by
  decide

/-- C5 (amended): collecting the distinct stop points returns the
concatenated stop-point lists of the surfaces' stations deduplicated by full
structural equality on (ref, prefix, suffix) — not by ref alone — keeping
the first occurrence of each value in first-seen order across surfaces. -/
theorem C5_dedup_full_equality_first_seen (windows : List Window) :
    get_all_used_stoppoints windows =
      dedupKeepFirst ((windows.map (fun w => w.station.stop_points)).flatten) := by
  unfold get_all_used_stoppoints
  rw [foldl_nested, foldl_addNew_eq]
  have hf : ((windows.map (fun w => w.station.stop_points)).flatten).filter
      (fun y => decide (y ∉ ([] : List StopPoint))) =
      (windows.map (fun w => w.station.stop_points)).flatten :=
    List.filter_eq_self.mpr (fun a _ => by simp)
  rw [hf, List.nil_append]

/-- C7 (code bug, behavior at the failing input): refreshing a surface with
zero departures returns before the clearing loop, so every display slot
keeps the previous cycle's content — here slot 1 still shows a stale
departure — although the claim (and the specification) require all slots
beyond the supplied departures to be cleared. -/
theorem C7_empty_refresh_leaves_slots_stale :
    Window.refresh
        [SlotContent.shows goodDeparture, SlotContent.cleared, SlotContent.cleared] [] =
      ([], [SlotContent.shows goodDeparture, SlotContent.cleared, SlotContent.cleared]) := by
  decide

/-- C8: for every line number starting with "ICE" or "IC" the color
resolution returns the fixed high-speed-rail pair, and for every line number
starting with "FLX" the fixed long-distance-coach pair, for every table,
fallback pair and SEV-flag value — the table is never consulted. -/
theorem C8_superregional_overrides (line_name : String) (table : List ColorRow)
    (fallback_colors : String × String) (sev_flag : Bool) :
    ((pyStartswith line_name "ICE" = true ∨ pyStartswith line_name "IC" = true) →
        get_line_color line_name table fallback_colors sev_flag = ("#EC0016", "#FFFFFF")) ∧
      (pyStartswith line_name "FLX" = true →
        get_line_color line_name table fallback_colors sev_flag = ("#97d700", "#FFFFFF")) := by
  constructor
  · intro h
    have hcond : (pyStartswith line_name "ICE" || pyStartswith line_name "IC") = true := by
      rcases h with h | h <;> simp [h]
    unfold get_line_color
    rw [if_pos hcond]
  · intro h
    obtain ⟨h1, h2⟩ := flx_not_ic h
    have hcond : ¬ ((pyStartswith line_name "ICE" || pyStartswith line_name "IC") = true) := by
      simp [h1, h2]
    unfold get_line_color
    rw [if_neg hcond, if_pos h]

/-- C8 (witness): the overrides evaluated at "ICE123" and "FLX10" with a
nonempty table. -/
theorem C8_superregional_overrides_witness :
    get_line_color "ICE123" colorTable12 ("#000000", "#111111") false =
        ("#EC0016", "#FFFFFF") ∧
      get_line_color "FLX10" colorTable12 ("#000000", "#111111") true =
        ("#97d700", "#FFFFFF") :=
  ⟨(C8_superregional_overrides "ICE123" colorTable12 ("#000000", "#111111") false).1
      (Or.inl (by decide)),
    (C8_superregional_overrides "FLX10" colorTable12 ("#000000", "#111111") true).2
      (by decide)⟩

/-- C10: `Window.refresh` sorts the departure list it receives in place;
after the call the caller-visible list is a permutation of the original
(same elements, none added or removed) in ascending estimated-else-planned
order. -/
theorem C10_refresh_sorts_in_place (slots : List SlotContent) (departures : List Departure) :
    ((Window.refresh slots departures).1).Perm departures ∧
      List.Pairwise depLE (Window.refresh slots departures).1 := by
  rw [refresh_fst]
  exact ⟨List.perm_insertionSort depLE departures, List.sorted_insertionSort depLE departures⟩

/-- C9: for a line number not covered by the ICE/IC/FLX overrides whose
exact-match search in the operator-filtered table finds no row: when the
flag is set and the name starts with "SEV" (slice [0:3]), the search is
retried with the prefix stripped and the first matching row's pair is
returned, the fallback pair when the retry also misses; when the flag is
unset or the name does not start with "SEV", the fallback pair is returned
unchanged. -/
theorem C9_sev_retry_and_fallback (line_name : String) (table : List ColorRow)
    (fallback_colors : String × String) (sev_flag : Bool)
    (h1 : pyStartswith line_name "ICE" = false) (h2 : pyStartswith line_name "IC" = false)
    (h3 : pyStartswith line_name "FLX" = false)
    (hmiss : (table.filter (fun r => opMatchesKvv r.shortOperatorName)).filter
        (fun r => r.lineName = line_name) = []) :
    ((sev_flag = true ∧ pyTake line_name 3 = "SEV") →
        (∀ r rs,
          (table.filter (fun r => opMatchesKvv r.shortOperatorName)).filter
              (fun r => r.lineName = pyDrop line_name 3) = r :: rs →
          get_line_color line_name table fallback_colors sev_flag =
            (r.backgroundColor, r.textColor)) ∧
        ((table.filter (fun r => opMatchesKvv r.shortOperatorName)).filter
            (fun r => r.lineName = pyDrop line_name 3) = [] →
          get_line_color line_name table fallback_colors sev_flag = fallback_colors)) ∧
      (¬ (sev_flag = true ∧ pyTake line_name 3 = "SEV") →
        get_line_color line_name table fallback_colors sev_flag = fallback_colors) := by
  have hcond : ¬ ((pyStartswith line_name "ICE" || pyStartswith line_name "IC") = true) := by
    simp [h1, h2]
  have hflx : ¬ (pyStartswith line_name "FLX" = true) := by simp [h3]
  constructor
  · intro hsev
    constructor
    · intro r rs hretry
      unfold get_line_color
      rw [if_neg hcond, if_neg hflx]
      simp only []
      rw [hmiss]
      simp only []
      rw [if_pos hsev, hretry]
    · intro hretry
      unfold get_line_color
      rw [if_neg hcond, if_neg hflx]
      simp only []
      rw [hmiss]
      simp only []
      rw [if_pos hsev, hretry]
  · intro hsev
    unfold get_line_color
    rw [if_neg hcond, if_neg hflx]
    simp only []
    rw [hmiss]
    simp only []
    rw [if_neg hsev]

/-- C9 (witness): the specification's own example — "SEV12" with the flag
set, no direct match, and a table row for "12" — resolves to that row's
pair. -/
theorem C9_sev_retry_and_fallback_witness :
    get_line_color "SEV12" colorTable12 ("#000000", "#111111") true =
      ("#A1B2C3", "#D4E5F6") :=
  ((C9_sev_retry_and_fallback "SEV12" colorTable12 ("#000000", "#111111") true
      (by decide) (by decide) (by decide) (by decide)).1
    ⟨rfl, by decide⟩).1 ⟨some "KVV", "12", "#A1B2C3", "#D4E5F6"⟩ [] (by decide)

/-- C1: a transport failure while fetching one stop point's departures is
absorbed inside the refresh cycle — the aggregate over the full stop-point
list equals the aggregate over the list without the failed stop point, so
every remaining stop point is still fetched, decoded and aggregated and the
cycle runs to completion.  The KVV client itself is not part of the supplied
sources; per the specification it returns a document-or-failure value, and
the parse of a failure value raises inside the cycle's per-stop-point
`try`. -/
theorem C1_transport_failure_isolated (fetch : String → FetchResult)
    (stations : List Station) (table : List ColorRow) (fallback : String × String)
    (sev_flag : Bool) (l1 l2 : List StopPoint) (spBad : StopPoint)
    (hfail : fetch spBad.stop_point_ref = FetchResult.failure) :
    update_departure_entries fetch (l1 ++ spBad :: l2) stations table fallback sev_flag =
      update_departure_entries fetch (l1 ++ l2) stations table fallback sev_flag := by
  unfold update_departure_entries
  simp only [List.foldl_append, List.foldl_cons]
  rw [hfail]

/-- C1 (witness): a three-stop cycle whose middle stop point "B" suffers a
transport failure aggregates exactly what the cycle without "B" does. -/
theorem C1_transport_failure_isolated_witness :
    update_departure_entries cycleFetch
        [⟨"A", none, none⟩, ⟨"B", none, none⟩, ⟨"C", none, none⟩]
        [hbf] [] ("#000000", "#111111") false =
      update_departure_entries cycleFetch [⟨"A", none, none⟩, ⟨"C", none, none⟩]
        [hbf] [] ("#000000", "#111111") false :=
  C1_transport_failure_isolated cycleFetch [hbf] [] ("#000000", "#111111") false
    [⟨"A", none, none⟩] [⟨"C", none, none⟩] ⟨"B", none, none⟩ rfl

/-- C3 (counterexample): a document with a record lacking its destination
followed by a complete record decodes to an error — the complete record's
departure is not returned — although decoding the complete record alone
succeeds; the claim's per-record drop does not hold. -/
theorem C3_per_record_drop_counterexample :
    get_departures_from_xml "de:8212:1" [badEvent, goodEvent] [hbf] []
        ("#000000", "#111111") false = .error DecodeError.attrError ∧
      get_departures_from_xml "de:8212:1" [goodEvent] [hbf] [] ("#000000", "#111111")
        false = .ok [goodDeparture] := by
  decide

/-- C3 (amended): a record with a missing required field (no readable stop
point ref, or — after passing the prefix filter — no planned time, no
published line name, no destination, no mode, or an unresolvable stop
point) aborts the decode of the entire document: the call returns an error
and no departures, instead of dropping only the offending record.  The
error is caught per stop point by the refresh cycle (C1), which reports it
and continues with the other stop points. -/
theorem C3_missing_required_aborts_document (stop_point_ref : String)
    (events : List StopEventResult) (all_stations : List Station) (table : List ColorRow)
    (fb : String × String) (flag : Bool)
    (hbad : ∃ ev ∈ events, requiredMissing all_stations stop_point_ref ev) :
    ∃ e, get_departures_from_xml stop_point_ref events all_stations table fb flag =
      .error e := by
  cases hres : get_departures_from_xml stop_point_ref events all_stations table fb flag with
  | error e => exact ⟨e, rfl⟩
  | ok l =>
    obtain ⟨ev, hmem, hmiss⟩ := hbad
    exact absurd hmiss
      (decode_ok_not_missing stop_point_ref all_stations table fb flag events l hres ev hmem)

/-- C3 (witness): the two-record document of the counterexample satisfies
the missing-required-field hypothesis and therefore decodes to an error. -/
theorem C3_missing_required_aborts_document_witness :
    ∃ e, get_departures_from_xml "de:8212:1" [badEvent, goodEvent] [hbf] []
        ("#000000", "#111111") false = .error e :=
  C3_missing_required_aborts_document "de:8212:1" [badEvent, goodEvent] [hbf] []
    ("#000000", "#111111") false
    ⟨badEvent, by decide, Or.inr ⟨"de:8212:1:3", rfl, by decide,
      Or.inr (Or.inr (Or.inl rfl))⟩⟩

/-- C4: every departure returned by a successful decode is referentially
consistent — its station is in the supplied station list, its stop point is
one of that station's stop points, and that stop point's ref equals the
requested stop point ref exactly. -/
theorem C4_referential_consistency (stop_point_ref : String) (events : List StopEventResult)
    (all_stations : List Station) (table : List ColorRow) (fb : String × String) (flag : Bool)
    (l : List Departure)
    (hok : get_departures_from_xml stop_point_ref events all_stations table fb flag = .ok l) :
    ∀ d ∈ l, d.station ∈ all_stations ∧ d.stop_point ∈ d.station.stop_points ∧
      d.stop_point.stop_point_ref = stop_point_ref := by
  intro d hd
  exact resolveStopPoint_mem
    (decode_mem_resolve stop_point_ref all_stations table fb flag events l hok d hd)

/-- C4 (witness): the single departure decoded from `goodEvent` references
`hbf` and its stop point with the requested ref. -/
theorem C4_referential_consistency_witness :
    goodDeparture.station ∈ [hbf] ∧
      goodDeparture.stop_point ∈ goodDeparture.station.stop_points ∧
      goodDeparture.stop_point.stop_point_ref = "de:8212:1" :=
  C4_referential_consistency "de:8212:1" [goodEvent] [hbf] [] ("#000000", "#111111") false
    [goodDeparture] (by decide) goodDeparture (by decide)

/-- C6: the departures handed to a surface are exactly those of the
aggregate whose station equals the surface's station, as a permutation of
the filter result, sorted ascending by estimated-else-planned time, and the
sort is stable: any key-sorted subsequence of the filter result is still a
subsequence of the handed list. -/
theorem C6_filter_sort_stable (w : Window) (slots : List SlotContent)
    (all_departures : List Departure) :
    ((Window.refresh slots (get_departures_for_window w all_departures)).1).Perm
        (get_departures_for_window w all_departures) ∧
      (∀ d, d ∈ (Window.refresh slots (get_departures_for_window w all_departures)).1 ↔
        (d ∈ all_departures ∧ d.station = w.station)) ∧
      List.Pairwise depLE
        (Window.refresh slots (get_departures_for_window w all_departures)).1 ∧
      (∀ c : List Departure, c.Pairwise depLE →
        c.Sublist (get_departures_for_window w all_departures) →
        c.Sublist (Window.refresh slots (get_departures_for_window w all_departures)).1) := by
  rw [refresh_fst]
  refine ⟨List.perm_insertionSort depLE _, ?_, List.sorted_insertionSort depLE _, ?_⟩
  · intro d
    simp [pySort, get_departures_for_window]
  · intro c hc hsub
    exact List.sublist_insertionSort hc hsub

/-- C6 (witness): with the specification's sorting example — one departure
with no estimated time and planned 10:02, one with estimated 10:05 — the
singleton holding the null-estimated departure is a key-sorted subsequence
of the filter result and hence still a subsequence of the handed list. -/
theorem C6_filter_sort_stable_witness :
    [depNullEst].Sublist
      ((Window.refresh [] (get_departures_for_window windowHbf
        [depEst1005, depNullEst])).1) := by
  have hsub : [depNullEst].Sublist
      (get_departures_for_window windowHbf [depEst1005, depNullEst]) := by
    have heq : get_departures_for_window windowHbf [depEst1005, depNullEst] =
        [depEst1005, depNullEst] := by decide
    rw [heq]
    exact (List.Sublist.refl _).cons _
  exact (C6_filter_sort_stable windowHbf [] [depEst1005, depNullEst]).2.2.2 [depNullEst]
    (by simp) hsub
